import Mathlib

/-!
Verification of the VD data crawler pipeline (src/main.py and
src/vd_pipeline_refactored.py) against its specification.

The embedding models:
* Python insertion-ordered dicts as association lists (`oget`/`oset`),
* XML documents as `XTree` values,
* the two XML-to-row parsers `_parse_xml_lxml` (main.py) and `_parse_xml`
  (vd_pipeline_refactored.py),
* the download step `_download_one` and the per-day fetch loop,
* the `xml_to_csv` result-collection loop, the `split_by_vdid` combine and
  group stage, and the multi-day `batch` loop.
-/

namespace VD

/-! Ordered dictionaries: Python `dict` with insertion order.
`oset` models `d[k] = v` (replace in place, else append);
`oget` models `d.get(k)`. -/

def oget {β : Type} : List (String × β) → String → Option β
  | [], _ => none
  | p :: ps, k => if p.1 = k then some p.2 else oget ps k

def oset {β : Type} : List (String × β) → String → β → List (String × β)
  | [], k, v => [(k, v)]
  | p :: ps, k, v => if p.1 = k then (k, v) :: ps else p :: oset ps k v

theorem oget_oset_self {β : Type} (d : List (String × β)) (k : String) (v : β) :
    oget (oset d k v) k = some v := by
  induction d with
  | nil => simp [oset, oget]
  | cons p ps ih =>
    by_cases h : p.1 = k
    · simp [oset, h, oget]
    · simp [oset, h, oget, ih]

theorem oget_oset_ne {β : Type} (d : List (String × β)) (k k' : String) (v : β)
    (h : k' ≠ k) : oget (oset d k v) k' = oget d k' := by
  induction d with
  | nil => simp [oset, oget, Ne.symm h]
  | cons p ps ih =>
    by_cases hp : p.1 = k
    · simp [oset, oget, hp, Ne.symm h]
    · by_cases hpk : p.1 = k'
      · simp [oset, oget, hp, hpk, h]
      · simp [oset, oget, hp, hpk, ih]

theorem mem_oset {β : Type} {d : List (String × β)} {k : String} {v : β}
    {p : String × β} (h : p ∈ oset d k v) : p = (k, v) ∨ p ∈ d := by
  induction d with
  | nil => simpa [oset] using h
  | cons q qs ih =>
    by_cases hq : q.1 = k
    · simp only [oset, hq, if_pos, List.mem_cons] at h
      rcases h with h | h
      · exact Or.inl h
      · exact Or.inr (List.mem_cons_of_mem _ h)
    · simp only [oset, hq, if_neg, not_false_iff, List.mem_cons] at h
      rcases h with h | h
      · exact Or.inr (by simp [h])
      · rcases ih h with h' | h'
        · exact Or.inl h'
        · exact Or.inr (List.mem_cons_of_mem _ h')

theorem oget_eq_none_of_forall_ne {β : Type} (d : List (String × β)) (k : String)
    (h : ∀ p ∈ d, p.1 ≠ k) : oget d k = none := by
  induction d with
  | nil => rfl
  | cons p ps ih =>
    have hp : p.1 ≠ k := h p (List.mem_cons_self _ _)
    simp only [oget, hp, if_neg, not_false_iff]
    exact ih (fun q hq => h q (List.mem_cons_of_mem _ hq))

/-! XML documents.  An element has a tag, optional text, and children.
Tags are stored fully qualified (Clark notation), as both parsers see them. -/

inductive XTree : Type where
  | node : String → Option String → List XTree → XTree

def XTree.tag : XTree → String
  | .node t _ _ => t

def XTree.text : XTree → Option String
  | .node _ x _ => x

def XTree.children : XTree → List XTree
  | .node _ _ c => c

mutual

def postorder : XTree → List XTree
  | .node t x cs => postorderList cs ++ [XTree.node t x cs]

def postorderList : List XTree → List XTree
  | [] => []
  | e :: es => postorder e ++ postorderList es

end

mutual

def descAll (t : String) : XTree → List XTree
  | .node tg x cs => (if tg = t then [XTree.node tg x cs] else []) ++ descAllList t cs

def descAllList (t : String) : List XTree → List XTree
  | [] => []
  | e :: es => descAll t e ++ descAllList t es

end

/-- All descendants of `e` (excluding `e` itself) with tag `t`, in document
order; models `elem.findall(".//tag")`. -/
def descendants (e : XTree) (t : String) : List XTree :=
  descAllList t e.children

/-- First direct child with tag `t`; models `elem.find(tag)`. -/
def findChild (e : XTree) (t : String) : Option XTree :=
  e.children.find? (fun c => c.tag = t)

/-- Models `elem.findtext(tag, default="")`: empty string when the child is
missing or has no text (both `xml.etree` and `lxml` behave this way). -/
def findtextD (e : XTree) (t : String) : String :=
  match findChild e t with
  | none => ""
  | some c => c.text.getD ""

/-! Tag and key constants of the pipeline. -/

def nsURI : String := "http://traffic.transportdata.tw/standard/traffic/schema/"

/-- Fully qualified (Clark notation) tag, as matched by both parsers. -/
def nsTag (l : String) : String := "\x7b" ++ nsURI ++ "\x7d" ++ l

def tagVDLive : String := nsTag ("VDLive")

def tagVDID : String := nsTag ("VDID")

def tagLane : String := nsTag ("Lane")

def tagLaneID : String := nsTag ("LaneID")

def tagSpeed : String := nsTag ("Speed")

def tagOccupancy : String := nsTag ("Occupancy")

def tagVehicle : String := nsTag ("Vehicle")

def tagVehicleType : String := nsTag ("VehicleType")

def tagVolume : String := nsTag ("Volume")

def kVDID : String := "VDID"

def kSpeed : String := "Speed"

def kOccupancy : String := "Occupancy"

def kL : String := "L"

def sUnderscore : String := "_"

def sVolume : String := "_Volume"

def sVehicleSpeed : String := "_Vehicle_Speed"

def kFileName : String := "file_name"

/-! The document transformer.  `Row` is one Python dict of cells; `Lanes` is
the per-device dict of lane records; `Data` is the per-document dict keyed by
VDID.  The three processing functions below are the loop bodies shared
verbatim by `_parse_xml_lxml` (src/main.py lines 124-135) and `_parse_xml`
(src/vd_pipeline_refactored.py lines 114-125). -/

abbrev Row : Type := List (String × String)

abbrev Lanes : Type := List (String × Row)

abbrev Data : Type := List (String × Lanes)

/-- Accessors used on a vehicle-classification element. -/
def vtOf (veh : XTree) : String := findtextD veh tagVehicleType

def volOf (veh : XTree) : String := findtextD veh tagVolume

def spdOf (veh : XTree) : String := findtextD veh tagSpeed

/-- Body of `for veh in lane.findall(".//Vehicle")`: skip an empty
classification, else set the classification's volume and speed fields. -/
def processVehicle (veh : XTree) (r : Row) : Row :=
  let vt := vtOf veh
  if vt = "" then r
  else oset (oset r (vt ++ sVolume) (volOf veh)) (vt ++ sVehicleSpeed) (spdOf veh)

/-- The vehicle loop over a lane's vehicle-classification elements. -/
def vehicleFold (r : Row) (vehs : List XTree) : Row :=
  vehs.foldl (fun r2 v => processVehicle v r2) r

/-- Body of `for lane in elem.findall(".//Lane")`:
`rec = lanes.setdefault(f"L{lane_id}", {})`, then assign `Speed` and
`Occupancy`, then run the vehicle loop, with the mutation of `rec` written
back into `lanes`. -/
def processLane (lanes : Lanes) (lane : XTree) : Lanes :=
  let laneId := findtextD lane tagLaneID
  let key := kL ++ laneId
  let r0 := (oget lanes key).getD []
  let r1 := oset r0 kSpeed (findtextD lane tagSpeed)
  let r2 := oset r1 kOccupancy (findtextD lane tagOccupancy)
  let r3 := vehicleFold r2 (descendants lane tagVehicle)
  oset lanes key r3

/-- Processing of one `VDLive` element once its (non-empty) VDID is known:
`lanes = data.setdefault(vdid, {})` followed by the lane loop, with the
mutation written back into `data`. -/
def vdliveStep (vdid : String) (data : Data) (e : XTree) : Data :=
  let lanes0 := (oget data vdid).getD []
  let lanes1 := (descendants e tagLane).foldl processLane lanes0
  oset data vdid lanes1

/-- The lxml VDID extraction and guard (src/main.py lines 119-123):
`vdid = vdid_elem.text if vdid_elem is not None else ""`, skip when falsy
(`None` or the empty string). -/
def stepLxml (data : Data) (e : XTree) : Data :=
  match findChild e tagVDID with
  | none => data
  | some c =>
    match c.text with
    | none => data
    | some s => if s = "" then data else vdliveStep s data e

/-- The ElementTree VDID extraction and guard (src/vd_pipeline_refactored.py
lines 111-113): `vdid = elem.findtext("ns:VDID", default="")`, skip when
empty. -/
def stepEt (data : Data) (e : XTree) : Data :=
  let vdid := findtextD e tagVDID
  if vdid = "" then data else vdliveStep vdid data e

/-- Flattening of one device record into a row (both sources, identical):
`row = {"VDID": vdid}` then `row.update({f"{lane_id}_{k}": v ...})` per
lane. -/
def flattenRow (vdid : String) (lanes : Lanes) : Row :=
  lanes.foldl
    (fun row p => p.2.foldl (fun row2 q => oset row2 (p.1 ++ sUnderscore ++ q.1) q.2) row)
    [(kVDID, vdid)]

def rowsOfData (data : Data) : List Row :=
  data.map (fun p => flattenRow p.1 p.2)

/-- `_parse_xml_lxml` (src/main.py lines 114-143): `lxml.etree.iterparse`
delivers exactly the `VDLive` elements, in end-event (document post-) order. -/
def parse_xml_lxml (doc : XTree) : List Row :=
  rowsOfData (((postorder doc).filter (fun e => e.tag = tagVDLive)).foldl stepLxml [])

/-- `_parse_xml` (src/vd_pipeline_refactored.py lines 106-133):
`xml.etree.ElementTree.iterparse` delivers every end event; non-`VDLive`
tags are skipped by the `continue`. -/
def parse_xml (doc : XTree) : List Row :=
  rowsOfData ((postorder doc).foldl
    (fun d e => if e.tag = tagVDLive then stepEt d e else d) [])

/-! The fetch stage.  `_download_one` (src/main.py lines 56-73) acts on one
destination path; the filesystem state of a destination is `Option Nat`
(present with a size, or absent).  The network outcome of one retrieval is
abstracted as `NetResult`: a successful transfer of a given total size, or
any retrieval error (after the transport-level retries).  The Bool mirrors
the function's return value. -/

inductive NetResult : Type where
  | ok : Nat → NetResult
  | err : NetResult

/-- `_download_one`: skip when the destination exists (no re-validation);
on a retrieval error delete the partial file; after a successful transfer
delete the file when its size is below `minSize`. -/
def download_one (minSize : Nat) (dest : Option Nat) (net : NetResult) :
    Option Nat × Bool :=
  match dest with
  | some sz => (some sz, true)
  | none =>
    match net with
    | NetResult.err => (none, false)
    | NetResult.ok sz => if sz < minSize then (none, false) else (some sz, true)

/-- The day's 1440 Resource Descriptors, one per minute of the day; each
worker owns its own destination (the `VDLive_HHMM` names are pairwise
distinct), so the day's filesystem state is a function per minute. -/
def minutesOfDay : List (Fin 1440) := List.finRange 1440

/-- State of all destinations after `download_day` returns: every minute's
destination is processed by `_download_one` exactly once. -/
def download_day (minSize : Nat) (fs : Fin 1440 → Option Nat)
    (net : Fin 1440 → NetResult) : Fin 1440 → Option Nat :=
  fun m => (download_one minSize (fs m) (net m)).1

/-- Number of network retrievals a run performs: `sess.get` is reached
exactly for the destinations that do not already exist. -/
def retrievalCount (fs : Fin 1440 → Option Nat) : Nat :=
  minutesOfDay.countP (fun m => (fs m).isNone)

/-! The `xml_to_csv` result-collection loop (src/main.py lines 152-157,
src/vd_pipeline_refactored.py lines 139-144).  Parsing one document either
yields its table of rows or raises; `fut.result()` re-raises the first
failure inside the loop, so the tables written before it stay on disk and
nothing further is written.  The list order models the completion order of
`as_completed`. -/

def xml_to_csv {α ε : Type} (parse : α → Except ε (List Row)) :
    List α → List (List Row) × Option ε
  | [] => ([], none)
  | d :: ds =>
    match parse d with
    | Except.error e => ([], some e)
    | Except.ok t =>
      let r := xml_to_csv parse ds
      (t :: r.1, r.2)

/-! The combine-and-partition stage `split_by_vdid` (src/main.py lines
162-177, src/vd_pipeline_refactored.py lines 148-158).  A per-document
table is a column list plus rows; a cell absent from a row reads as `none`
(pandas' missing-value marker). -/

structure Table : Type where
  cols : List String
  rows : List Row

/-- Column result of `pd.concat`: the first table's columns, then each
later table's columns not seen before, in order of appearance. -/
def colUnion (acc : List String) (cs : List String) : List String :=
  acc ++ cs.filter (fun c => c ∉ acc)

/-- `pd.concat(..., ignore_index=True)` over a non-empty list of tables:
columns are unioned, rows concatenated, and a row lacking one of the
unioned columns reads as the missing-value marker. -/
def concatTables (ts : List Table) : Table :=
  { cols := ts.foldl (fun acc t => colUnion acc t.cols) []
    rows := (ts.map Table.rows).flatten }

/-- `.assign(file_name=p.name)`: adds the source-document column. -/
def assignFileName (name : String) (t : Table) : Table :=
  { cols := if t.cols.contains kFileName then t.cols else t.cols ++ [kFileName]
    rows := t.rows.map (fun r => oset r kFileName name) }

inductive CombineError : Type where
  | noObjectsToConcatenate : CombineError

/-- Reading and concatenating the per-document tables: `pd.concat` raises
`ValueError: No objects to concatenate` on an empty input directory. -/
def combineCsvDir (files : List (String × Table)) : Except CombineError Table :=
  match files with
  | [] => Except.error CombineError.noObjectsToConcatenate
  | _ => Except.ok (concatTables (files.map (fun f => assignFileName f.1 f.2)))

/-- `combined.groupby("VDID")`: one group per distinct `VDID` value, rows of
a group in combined-table order (rows whose `VDID` cell is missing are
dropped by pandas).  Group keys are listed in first-appearance order; the
files written (`<vdid>.csv` per key) do not depend on the iteration
order. -/
def groupByVDID (rows : List Row) : List (String × List Row) :=
  ((rows.filterMap (fun r => oget r kVDID)).dedup).map
    (fun v => (v, rows.filter (fun r => oget r kVDID = some v)))

/-- The whole `split_by_vdid` stage: combine, then partition. -/
def split_by_vdid (files : List (String × Table)) :
    Except CombineError (List (String × List Row)) :=
  match combineCsvDir files with
  | Except.error e => Except.error e
  | Except.ok t => Except.ok (groupByVDID t.rows)

/-! The multi-day loop `batch` (src/main.py lines 220-226,
src/vd_pipeline_refactored.py lines 199-203): `process_day` is called for
each date of the backward-stepping range in order, with no exception
handling around the call.  The result records which dates were attempted
and the first uncaught failure, if any. -/

def batch {α ε : Type} (process : α → Except ε Unit) :
    List α → List α × Option ε
  | [] => ([], none)
  | d :: ds =>
    match process d with
    | Except.ok _ =>
      let r := batch process ds
      (d :: r.1, r.2)
    | Except.error e => ([d], some e)

/-! Helper lemmas. -/

theorem stepLxml_eq_stepEt (d : Data) (e : XTree) : stepLxml d e = stepEt d e := by
  unfold stepLxml stepEt findtextD
  cases hc : findChild e tagVDID with
  | none => simp
  | some c =>
    cases ht : c.text with
    | none => simp [ht]
    | some s => simp [ht]

theorem foldl_filter_eq {α β : Type} (p : β → Bool) (f : α → β → α)
    (l : List β) (a : α) :
    (l.filter p).foldl f a = l.foldl (fun x y => if p y then f x y else x) a := by
  induction l generalizing a with
  | nil => rfl
  | cons b bs ih =>
    by_cases h : p b <;> simp [List.filter_cons, h, ih]

/-- Claim C4: the two Document Transformer implementations — the
streaming-parser-library one (`_parse_xml_lxml`) and the standard-library
one (`_parse_xml`) — produce the same rows (same VDID keys, same columns,
same values) for every Document. -/
theorem c4_parser_equivalence (doc : XTree) : parse_xml_lxml doc = parse_xml doc := by
  unfold parse_xml_lxml parse_xml
  congr 1
  rw [foldl_filter_eq]
  have hf : (fun (x : Data) (y : XTree) =>
      if (fun e => decide (e.tag = tagVDLive)) y = true then stepLxml x y else x)
      = fun d e => if e.tag = tagVDLive then stepEt d e else d := by
    funext x y
    by_cases h : y.tag = tagVDLive <;> simp [h, stepLxml_eq_stepEt]
  rw [hf]

/-! Lemmas for claim C5: flattened row keys other than the first are of the
form `laneKey ++ "_" ++ field`, which can never be the `VDID` key. -/

theorem flatten_key_ne_kVDID (a b : String) : a ++ sUnderscore ++ b ≠ kVDID := by
  intro h
  have hd := congrArg String.data h
  rw [String.data_append, String.data_append] at hd
  have hmem : '_' ∈ kVDID.data := by
    rw [← hd]
    simp [sUnderscore]
  simp only [kVDID] at hmem
  exact absurd hmem (by decide)

theorem oget_kVDID_rowfold (kv : Row) (lk : String) (r : Row) :
    oget (kv.foldl (fun row2 q => oset row2 (lk ++ sUnderscore ++ q.1) q.2) r) kVDID
      = oget r kVDID := by
  induction kv generalizing r with
  | nil => rfl
  | cons q qs ih =>
    rw [List.foldl_cons, ih]
    exact oget_oset_ne _ _ _ _ (fun hh => flatten_key_ne_kVDID lk q.1 hh.symm)

theorem oget_kVDID_lanesfold (lanes : Lanes) (r : Row) :
    oget (lanes.foldl
      (fun row p => p.2.foldl (fun row2 q => oset row2 (p.1 ++ sUnderscore ++ q.1) q.2) row)
      r) kVDID = oget r kVDID := by
  induction lanes generalizing r with
  | nil => rfl
  | cons p ps ih => rw [List.foldl_cons, ih, oget_kVDID_rowfold]

theorem oget_kVDID_flattenRow (vdid : String) (lanes : Lanes) :
    oget (flattenRow vdid lanes) kVDID = some vdid := by
  unfold flattenRow
  rw [oget_kVDID_lanesfold]
  simp [oget]

theorem keys_vdliveStep {s : String} {d : Data} {e : XTree}
    (hs : s ≠ "") (hd : ∀ p ∈ d, p.1 ≠ "") :
    ∀ p ∈ vdliveStep s d e, p.1 ≠ "" := by
  intro p hp
  rcases mem_oset hp with h | h
  · rw [h]; exact hs
  · exact hd p h

theorem keys_stepEt {d : Data} {e : XTree} (hd : ∀ p ∈ d, p.1 ≠ "") :
    ∀ p ∈ stepEt d e, p.1 ≠ "" := by
  dsimp only [stepEt]
  split
  · exact hd
  · next h => exact keys_vdliveStep h hd

theorem keys_stepLxml {d : Data} {e : XTree} (hd : ∀ p ∈ d, p.1 ≠ "") :
    ∀ p ∈ stepLxml d e, p.1 ≠ "" := by
  unfold stepLxml
  split
  · exact hd
  · split
    · exact hd
    · split
      · exact hd
      · next h => exact keys_vdliveStep h hd

theorem keys_fold {β : Type} (f : Data → β → Data)
    (hf : ∀ d e, (∀ p ∈ d, p.1 ≠ "") → ∀ p ∈ f d e, p.1 ≠ "")
    (l : List β) (d0 : Data) (h0 : ∀ p ∈ d0, p.1 ≠ "") :
    ∀ p ∈ l.foldl f d0, p.1 ≠ "" := by
  induction l generalizing d0 with
  | nil => exact h0
  | cons e es ih => exact ih (f d0 e) (hf d0 e h0)

/-- Claim C5: a sensor-snapshot element whose device identifier is empty or
absent contributes no row: every row either Document Transformer produces
carries a non-empty `VDID` key. -/
theorem c5_no_blank_vdid (doc : XTree) (row : Row)
    (h : row ∈ parse_xml doc ∨ row ∈ parse_xml_lxml doc) :
    ∃ v, oget row kVDID = some v ∧ v ≠ "" := by
  have main : ∀ (data : Data), (∀ p ∈ data, p.1 ≠ "") → row ∈ rowsOfData data →
      ∃ v, oget row kVDID = some v ∧ v ≠ "" := by
    intro data hkeys hrow
    rcases List.mem_map.mp hrow with ⟨p, hp, hflat⟩
    exact ⟨p.1, by rw [← hflat]; exact oget_kVDID_flattenRow p.1 p.2, hkeys p hp⟩
  rcases h with h | h
  · refine main _ ?_ h
    refine keys_fold _ ?_ _ _ (by intro p hp; cases hp)
    intro d e hd
    by_cases ht : e.tag = tagVDLive
    · simpa [ht] using keys_stepEt hd
    · simpa [ht] using hd
  · refine main _ ?_ h
    refine keys_fold _ ?_ _ _ (by intro p hp; cases hp)
    intro d e hd
    exact keys_stepLxml hd

/-! Lemmas for claim C6: the column names built from distinct non-empty
vehicle classifications are pairwise distinct. -/

theorem append_ne_of_ne {a b : String} (c : String) (h : a ≠ b) : a ++ c ≠ b ++ c := by
  intro hh
  have hd := congrArg String.data hh
  rw [String.data_append, String.data_append] at hd
  exact h (String.ext (List.append_cancel_right hd))

theorem volume_key_ne_vspeed_key (a b : String) : a ++ sVolume ≠ b ++ sVehicleSpeed := by
  intro h
  have hd := congrArg String.data h
  rw [String.data_append, String.data_append] at hd
  have h1 := congrArg List.getLast? hd
  rw [List.getLast?_append_of_ne_nil _ (by decide : sVolume.data ≠ []),
    List.getLast?_append_of_ne_nil _ (by decide : sVehicleSpeed.data ≠ [])] at h1
  exact absurd h1 (by decide)

theorem oget_vehicleFold_of_ne (vehs : List XTree) (k : String) :
    ∀ (r : Row),
    (∀ v ∈ vehs, vtOf v ≠ "" → (vtOf v ++ sVolume ≠ k ∧ vtOf v ++ sVehicleSpeed ≠ k)) →
    oget (vehicleFold r vehs) k = oget r k := by
  induction vehs with
  | nil => intro r h; rfl
  | cons v vs ih =>
    intro r h
    have step : oget (processVehicle v r) k = oget r k := by
      unfold processVehicle
      dsimp only
      split
      · rfl
      · next hvt =>
        rcases h v (List.mem_cons_self _ _) hvt with ⟨h1, h2⟩
        rw [oget_oset_ne _ _ _ _ (Ne.symm h2), oget_oset_ne _ _ _ _ (Ne.symm h1)]
    have hrec := ih (processVehicle v r) (fun u hu hvt => h u (List.mem_cons_of_mem _ hu) hvt)
    calc oget (vehicleFold r (v :: vs)) k
        = oget (vehicleFold (processVehicle v r) vs) k := rfl
      _ = oget (processVehicle v r) k := hrec
      _ = oget r k := step

/-- Claim C6: multiple vehicle-classification elements of one lane
accumulate into the same Lane Record: for any vehicle element whose
non-empty classification is not repeated later in the lane, the record
built by the vehicle loop holds that classification's volume and speed
under its own column names, untouched by the other classifications
processed after it; classifications with an empty value are skipped. -/
theorem c6_classifications_accumulate (lane : XTree) (r0 : Row)
    (l1 l2 : List XTree) (v : XTree)
    (hsplit : descendants lane tagVehicle = l1 ++ v :: l2)
    (hvt : vtOf v ≠ "")
    (hlast : ∀ v2 ∈ l2, vtOf v2 ≠ vtOf v) :
    oget (vehicleFold r0 (descendants lane tagVehicle)) (vtOf v ++ sVolume) = some (volOf v)
    ∧ oget (vehicleFold r0 (descendants lane tagVehicle)) (vtOf v ++ sVehicleSpeed) = some (spdOf v)
    ∧ ∀ (v2 : XTree) (r : Row), vtOf v2 = "" → processVehicle v2 r = r := by
  have hfold : vehicleFold r0 (l1 ++ v :: l2)
      = vehicleFold (processVehicle v (vehicleFold r0 l1)) l2 := by
    unfold vehicleFold
    rw [List.foldl_append, List.foldl_cons]
  have hmid : processVehicle v (vehicleFold r0 l1)
      = oset (oset (vehicleFold r0 l1) (vtOf v ++ sVolume) (volOf v))
          (vtOf v ++ sVehicleSpeed) (spdOf v) := by
    unfold processVehicle
    dsimp only
    rw [if_neg hvt]
  refine ⟨?_, ?_, ?_⟩
  · rw [hsplit, hfold,
      oget_vehicleFold_of_ne l2 _ _ (fun u hu hu' =>
        ⟨append_ne_of_ne sVolume (hlast u hu),
         Ne.symm (volume_key_ne_vspeed_key (vtOf v) (vtOf u))⟩),
      hmid,
      oget_oset_ne _ _ _ _ (volume_key_ne_vspeed_key (vtOf v) (vtOf v)),
      oget_oset_self]
  · rw [hsplit, hfold,
      oget_vehicleFold_of_ne l2 _ _ (fun u hu hu' =>
        ⟨volume_key_ne_vspeed_key (vtOf u) (vtOf v),
         append_ne_of_ne sVehicleSpeed (hlast u hu)⟩),
      hmid,
      oget_oset_self]
  · intro v2 r h2
    unfold processVehicle
    dsimp only
    rw [if_pos h2]

/-- Concrete sample values used by the witnesses. -/
def sV001 : String := "V001"

/-- A minimal concrete Document: one `VDLive` element with `VDID` text
`V001` and no lanes. -/
def docW : XTree :=
  XTree.node tagVDLive none [XTree.node tagVDID (some sV001) []]

/-- Witness for claim C5 at the concrete document `docW`, whose single row
is `{VDID: V001}`. -/
theorem c5_no_blank_vdid_witness :
    ∃ v, oget [(kVDID, sV001)] kVDID = some v ∧ v ≠ "" :=
  c5_no_blank_vdid docW [(kVDID, sV001)] (Or.inl (by decide))

/-! Concrete lane with two vehicle classifications, for the C6 witness. -/

def sTypeS : String := "S"

def sTypeL : String := "L"

def sVol10 : String := "10"

def sVol3 : String := "3"

def sSpd61 : String := "61"

def sSpd55 : String := "55"

def sSpd60 : String := "60"

def sOcc5 : String := "5"

def sLane1 : String := "1"

def vehS : XTree :=
  XTree.node tagVehicle none
    [XTree.node tagVehicleType (some sTypeS) [],
     XTree.node tagVolume (some sVol10) [],
     XTree.node tagSpeed (some sSpd61) []]

def vehL : XTree :=
  XTree.node tagVehicle none
    [XTree.node tagVehicleType (some sTypeL) [],
     XTree.node tagVolume (some sVol3) [],
     XTree.node tagSpeed (some sSpd55) []]

def laneW : XTree :=
  XTree.node tagLane none
    [XTree.node tagLaneID (some sLane1) [],
     XTree.node tagSpeed (some sSpd60) [],
     XTree.node tagOccupancy (some sOcc5) [],
     vehS, vehL]

/-- Witness for claim C6 at the concrete lane `laneW` holding vehicle
classifications `S` and `L`. -/
theorem c6_classifications_accumulate_witness :
    oget (vehicleFold [] (descendants laneW tagVehicle)) (vtOf vehL ++ sVolume)
      = some (volOf vehL)
    ∧ oget (vehicleFold [] (descendants laneW tagVehicle)) (vtOf vehL ++ sVehicleSpeed)
      = some (spdOf vehL)
    ∧ ∀ (v2 : XTree) (r : Row), vtOf v2 = "" → processVehicle v2 r = r :=
  c6_classifications_accumulate laneW [] [vehS] [] vehL rfl (by decide)
    (fun v2 hv2 => absurd hv2 (List.not_mem_nil _))

/-! Claim C2: the post-run size guarantee.  The claim extends the
no-undersized-artifact guarantee to destinations that already existed
before the run; the already-exists skip returns without re-validation, so a
pre-existing undersized destination survives the run untouched. -/

/-- A filesystem with one pre-existing 10-byte destination at minute 0. -/
def fsPre : Fin 1440 → Option Nat := fun m => if m.val = 0 then some 10 else none

def netErr : Fin 1440 → NetResult := fun _ => NetResult.err

/-- Counterexample to claim C2: with the default 1024-byte threshold, a
pre-existing 10-byte destination still exists after the Fetch Scheduler
returns, and its size is below the threshold. -/
theorem c2_counterexample :
    download_day 1024 fsPre netErr ⟨0, by decide⟩ = some 10 ∧ 10 < 1024 :=
  ⟨rfl, by decide⟩

/-- Claim C2 (amended): for every destination that did not exist before the
run, after the Fetch Scheduler returns the destination either does not
exist or has size at least the minimum-size threshold; pre-existing
destinations are skipped as-is, without re-validation. -/
theorem c2_no_undersized_new_artifact (minSize : Nat) (fs : Fin 1440 → Option Nat)
    (net : Fin 1440 → NetResult) (m : Fin 1440) (h : fs m = none) :
    download_day minSize fs net m = none
    ∨ ∃ sz, download_day minSize fs net m = some sz ∧ minSize ≤ sz := by
  have he : download_day minSize fs net m = (download_one minSize none (net m)).1 := by
    unfold download_day
    rw [h]
  rw [he]
  cases net m with
  | err => exact Or.inl rfl
  | ok sz =>
    by_cases hlt : sz < minSize
    · left
      simp [download_one, hlt]
    · right
      exact ⟨sz, by simp [download_one, hlt], Nat.le_of_not_lt hlt⟩

def fsNone : Fin 1440 → Option Nat := fun _ => none

def netOk2048 : Fin 1440 → NetResult := fun _ => NetResult.ok 2048

/-- Witness for the amended claim C2 at a fresh destination and a
successful 2048-byte transfer. -/
theorem c2_no_undersized_new_artifact_witness :
    download_day 1024 fsNone netOk2048 ⟨0, by decide⟩ = none
    ∨ ∃ sz, download_day 1024 fsNone netOk2048 ⟨0, by decide⟩ = some sz ∧ 1024 ≤ sz :=
  c2_no_undersized_new_artifact 1024 fsNone netOk2048 ⟨0, by decide⟩ rfl

/-! Claim C9: idempotence of the Fetch Scheduler.  A destination whose
first-run fetch failed is left absent, so an immediately repeated run
retrieves it again: the second run performs zero retrievals only when every
destination exists after the first. -/

/-- Counterexample to claim C9: if every fetch of the first run failed (the
remote archive has no artifacts for the date, unchanged between runs), the
second run performs 1440 network retrievals, not zero. -/
theorem c9_counterexample :
    retrievalCount (download_day 1024 fsNone netErr) = 1440 := by
  unfold retrievalCount
  have hall : List.countP (fun m => (download_day 1024 fsNone netErr m).isNone)
      minutesOfDay = minutesOfDay.length :=
    List.countP_eq_length.mpr (fun m hm => rfl)
  rw [hall]
  simp [minutesOfDay, List.length_finRange]

/-- Claim C9 (amended): a second run performs a retrieval exactly for each
destination the first run left absent; in particular, if every destination
exists after the first run, the second run performs zero network
retrievals. -/
theorem c9_second_run_zero_retrievals (minSize : Nat) (fs : Fin 1440 → Option Nat)
    (net : Fin 1440 → NetResult)
    (h : ∀ m, (download_day minSize fs net m).isSome = true) :
    retrievalCount (download_day minSize fs net) = 0 := by
  unfold retrievalCount
  rw [List.countP_eq_zero]
  intro m hm hn
  rw [Option.isNone_iff_eq_none] at hn
  have hs := h m
  rw [hn] at hs
  cases hs

def fsFull : Fin 1440 → Option Nat := fun _ => some 2048

/-- Witness for the amended claim C9: after a run in which every
destination exists, the repeated run performs zero retrievals. -/
theorem c9_second_run_zero_retrievals_witness :
    retrievalCount (download_day 1024 fsFull netOk2048) = 0 :=
  c9_second_run_zero_retrievals 1024 fsFull netOk2048 (fun _ => rfl)

/-! Claim C1: parse-error isolation in the Document Transformer stage.
`fut.result()` re-raises a worker's parse error inside the collection loop
with no handler, so the stage aborts instead of isolating the failure. -/

def tableOkW : List Row := [[(kVDID, sV001)]]

/-- A parse oracle: document `true` is malformed, document `false` parses. -/
def parseCex : Bool → Except Unit (List Row) :=
  fun b => if b then Except.error () else Except.ok tableOkW

/-- Counterexample to claim C1: in a batch of two documents whose malformed
one completes first, the stage surfaces the parse error and the remaining,
well-formed document is never written. -/
theorem c1_counterexample :
    xml_to_csv parseCex [true, false] = ([], some ())
    ∧ (parseCex false).isOk = true :=
  ⟨rfl, rfl⟩

/-- Claim C1 (amended): a parse error is not absorbed by the Document
Transformer stage: the failing Document contributes zero rows, only the
Documents collected before the first failure are written, and every
Document of the batch is written exactly when every parse succeeds. -/
theorem c1_parse_error_aborts_stage {α ε : Type} (parse : α → Except ε (List Row))
    (ds : List α) :
    (xml_to_csv parse ds).1
      = (ds.takeWhile (fun d => (parse d).isOk)).filterMap (fun d => (parse d).toOption)
    ∧ ((xml_to_csv parse ds).2 = none ↔ ∀ d ∈ ds, (parse d).isOk = true) := by
  induction ds with
  | nil => simp [xml_to_csv]
  | cons d ds ih =>
    cases hp : parse d with
    | error e =>
      simp [xml_to_csv, hp, List.takeWhile_cons, Except.isOk, Except.toBool]
    | ok t =>
      simp [xml_to_csv, hp, List.takeWhile_cons, Except.isOk, Except.toBool,
        List.filterMap_cons, Except.toOption, ih.1, ih.2]

/-! Claim C3: day isolation in the multi-day batch loop.  `batch` calls
`process_day` with no exception handling: an uncaught failure in one day
ends the loop, and later days are never attempted. -/

/-- A day oracle: day 0 fails, every other day succeeds. -/
def processCex : Nat → Except Unit Unit :=
  fun n => if n = 0 then Except.error () else Except.ok ()

/-- Counterexample to claim C3: with two requested days whose first fails,
only the first day is attempted; day 1 would succeed but never starts. -/
theorem c3_counterexample :
    batch processCex [0, 1] = ([0], some ())
    ∧ (processCex 1).isOk = true
    ∧ ((batch processCex [0, 1]).1.contains 1) = false :=
  ⟨rfl, rfl, rfl⟩

/-- Claim C3 (amended): the batch attempts days in order only up to and
including the first failing day; a failure in day k prevents days k+1..N
from being attempted, and all days are attempted exactly when no day
fails. -/
theorem c3_failure_stops_batch {α ε : Type} (process : α → Except ε Unit)
    (ds : List α) :
    (batch process ds).1
      = ds.takeWhile (fun d => (process d).isOk)
        ++ (ds.dropWhile (fun d => (process d).isOk)).take 1 := by
  induction ds with
  | nil => rfl
  | cons d ds ih =>
    cases hp : process d with
    | ok u =>
      simp [batch, hp, List.takeWhile_cons, List.dropWhile_cons, Except.isOk,
        Except.toBool, ih]
    | error e =>
      simp [batch, hp, List.takeWhile_cons, List.dropWhile_cons, Except.isOk,
        Except.toBool]

/-! Claim C7: column union in the Table Combiner. -/

theorem mem_colUnion {acc cs : List String} {c : String} :
    c ∈ colUnion acc cs ↔ c ∈ acc ∨ c ∈ cs := by
  unfold colUnion
  simp only [List.mem_append, List.mem_filter, decide_not, Bool.not_eq_eq_eq_not,
    Bool.not_true, decide_eq_false_iff_not]
  constructor
  · rintro (h | ⟨h, _⟩)
    · exact Or.inl h
    · exact Or.inr h
  · rintro (h | h)
    · exact Or.inl h
    · by_cases ha : c ∈ acc
      · exact Or.inl ha
      · exact Or.inr ⟨h, ha⟩

theorem mem_foldl_colUnion (ls : List Table) (acc : List String) (c : String) :
    c ∈ ls.foldl (fun a t => colUnion a t.cols) acc
      ↔ c ∈ acc ∨ ∃ t ∈ ls, c ∈ t.cols := by
  induction ls generalizing acc with
  | nil => simp
  | cons t ts ih =>
    rw [List.foldl_cons, ih]
    simp only [mem_colUnion, List.mem_cons]
    constructor
    · rintro ((h | h) | ⟨u, hu, hc⟩)
      · exact Or.inl h
      · exact Or.inr ⟨t, Or.inl rfl, h⟩
      · exact Or.inr ⟨u, Or.inr hu, hc⟩
    · rintro (h | ⟨u, hu | hu, hc⟩)
      · exact Or.inl (Or.inl h)
      · exact Or.inl (Or.inr (hu ▸ hc))
      · exact Or.inr ⟨u, hu, hc⟩

/-- Claim C7: combining two per-document tables yields a Combined Table
whose column set is the union of the inputs' column sets, rows are kept,
and a cell of a row lacking one of the unioned columns reads as the
absent-value marker. -/
theorem c7_column_union (t1 t2 : Table) :
    (concatTables [t1, t2]).rows = t1.rows ++ t2.rows
    ∧ (∀ c, c ∈ (concatTables [t1, t2]).cols ↔ c ∈ t1.cols ∨ c ∈ t2.cols)
    ∧ (∀ r ∈ t2.rows, ∀ c, c ∈ t1.cols → c ∉ t2.cols →
        (∀ p ∈ r, p.1 ∈ t2.cols) →
        c ∈ (concatTables [t1, t2]).cols ∧ oget r c = none) := by
  have hcols : ∀ c, c ∈ (concatTables [t1, t2]).cols ↔ c ∈ t1.cols ∨ c ∈ t2.cols := by
    intro c
    have h := mem_foldl_colUnion [t1, t2] [] c
    simp only [concatTables] at h ⊢
    rw [h]
    simp
  refine ⟨by simp [concatTables], hcols, ?_⟩
  intro r hr c hc1 hc2 hkeys
  refine ⟨(hcols c).mpr (Or.inl hc1), ?_⟩
  exact oget_eq_none_of_forall_ne r c (fun p hp hpc => hc2 (hpc ▸ hkeys p hp))

def kL1Speed : String := "L1_Speed"

def kL2Speed : String := "L2_Speed"

def sA : String := "A"

def sB : String := "B"

def sSpd50 : String := "50"

/-- Per-document table with columns `{VDID, L1_Speed}`. -/
def tU1 : Table :=
  { cols := [kVDID, kL1Speed], rows := [[(kVDID, sA), (kL1Speed, sSpd60)]] }

/-- Per-document table with columns `{VDID, L2_Speed}`. -/
def tU2 : Table :=
  { cols := [kVDID, kL2Speed], rows := [[(kVDID, sB), (kL2Speed, sSpd50)]] }

/-- Witness for claim C7 at the spec's concrete instance: combining
`{VDID, L1_Speed}` with `{VDID, L2_Speed}` yields the column union
`{VDID, L1_Speed, L2_Speed}`, and the second table's row reads the
absent-value marker in column `L1_Speed`. -/
theorem c7_column_union_witness :
    (concatTables [tU1, tU2]).cols = [kVDID, kL1Speed, kL2Speed]
    ∧ (kL1Speed ∈ (concatTables [tU1, tU2]).cols
        ∧ oget [(kVDID, sB), (kL2Speed, sSpd50)] kL1Speed = none) :=
  ⟨by decide,
   (c7_column_union tU1 tU2).2.2 [(kVDID, sB), (kL2Speed, sSpd50)] (by decide)
     kL1Speed (by decide) (by decide) (by decide)⟩

/-! Claim C8: the Partition Writer. -/

theorem length_filterMap_vdid (rows : List Row)
    (h : ∀ r ∈ rows, (oget r kVDID).isSome = true) :
    (rows.filterMap (fun r => oget r kVDID)).length = rows.length := by
  induction rows with
  | nil => rfl
  | cons r rs ih =>
    have hr := h r (List.mem_cons_self _ _)
    cases ho : oget r kVDID with
    | none => rw [ho] at hr; cases hr
    | some v =>
      rw [List.filterMap_cons, ho]
      simp only [List.length_cons]
      rw [ih (fun q hq => h q (List.mem_cons_of_mem _ hq))]

theorem length_filter_eq_count (rows : List Row) (v : String) :
    (rows.filter (fun r => oget r kVDID = some v)).length
      = (rows.filterMap (fun r => oget r kVDID)).count v := by
  induction rows with
  | nil => rfl
  | cons r rs ih =>
    cases ho : oget r kVDID with
    | none =>
      rw [List.filterMap_cons, ho, List.filter_cons]
      simp [ho, ih]
    | some w =>
      by_cases hw : w = v
      · rw [List.filterMap_cons, ho, List.filter_cons]
        simp [ho, hw, ih, List.count_cons]
      · rw [List.filterMap_cons, ho, List.filter_cons]
        simp [ho, hw, ih, List.count_cons, Ne.symm hw]

/-- Claim C8: for a Combined Table in which every row carries a non-empty
`VDID` cell, the Partition Writer produces exactly one partition per
distinct `VDID` value present; every partition is the in-order filter of
the table's rows by its key (hence keeps the Combined Table's relative
order), the partition sizes sum to the number of rows (no row dropped or
duplicated), and a row belongs to a partition exactly when its `VDID` is
the partition's key. -/
theorem c8_partition (rows : List Row)
    (h : ∀ r ∈ rows, (oget r kVDID).isSome = true ∧ oget r kVDID ≠ some "") :
    ((groupByVDID rows).map Prod.fst).Nodup
    ∧ (∀ v, (v ∈ (groupByVDID rows).map Prod.fst) ↔ ∃ r ∈ rows, oget r kVDID = some v)
    ∧ (∀ p ∈ groupByVDID rows, p.1 ≠ "")
    ∧ (∀ p ∈ groupByVDID rows, p.2 = rows.filter (fun r => oget r kVDID = some p.1))
    ∧ (∀ p ∈ groupByVDID rows, p.2.Sublist rows)
    ∧ ((groupByVDID rows).map (fun p => p.2.length)).sum = rows.length
    ∧ (∀ r ∈ rows, ∀ p ∈ groupByVDID rows, (r ∈ p.2 ↔ oget r kVDID = some p.1)) := by
  have hkeys : (groupByVDID rows).map Prod.fst
      = (rows.filterMap (fun r => oget r kVDID)).dedup := by
    unfold groupByVDID
    rw [List.map_map]
    exact List.map_id _
  have hsnd : ∀ p ∈ groupByVDID rows,
      p.2 = rows.filter (fun r => oget r kVDID = some p.1) := by
    intro p hp
    rcases List.mem_map.mp hp with ⟨v, hv, hpv⟩
    rw [← hpv]
  have hmemk : ∀ v, (v ∈ (groupByVDID rows).map Prod.fst)
      ↔ ∃ r ∈ rows, oget r kVDID = some v := by
    intro v
    rw [hkeys, List.mem_dedup, List.mem_filterMap]
  refine ⟨?_, hmemk, ?_, hsnd, ?_, ?_, ?_⟩
  · rw [hkeys]
    exact List.nodup_dedup _
  · intro p hp
    have hv := (hmemk p.1).mp (List.mem_map.mpr ⟨p, hp, rfl⟩)
    rcases hv with ⟨r, hr, hrv⟩
    intro hempty
    exact (h r hr).2 (by rw [hrv, hempty])
  · intro p hp
    rw [hsnd p hp]
    exact List.filter_sublist _
  · unfold groupByVDID
    rw [List.map_map]
    have hc : ∀ v ∈ (rows.filterMap (fun r => oget r kVDID)).dedup,
        ((fun p => p.2.length) ∘ fun v => (v, rows.filter (fun r => oget r kVDID = some v))) v
          = (rows.filterMap (fun r => oget r kVDID)).count v := by
      intro v hv
      exact length_filter_eq_count rows v
    rw [List.map_congr_left hc, List.sum_map_count_dedup_eq_length]
    exact length_filterMap_vdid rows (fun r hr => (h r hr).1)
  · intro r hr p hp
    rw [hsnd p hp, List.mem_filter]
    simp [hr]

def rowA1 : Row := [(kVDID, sA), (kL1Speed, sSpd60)]

def rowA2 : Row := [(kVDID, sA), (kL1Speed, sSpd61)]

def rowA3 : Row := [(kVDID, sA)]

def rowB1 : Row := [(kVDID, sB)]

/-- The spec's concrete Combined Table: three rows for device `A`, one for
device `B`. -/
def rowsW : List Row := [rowA1, rowA2, rowA3, rowB1]

/-- Witness for claim C8 at the concrete table `rowsW`: exactly two
partitions, of 3 and 1 rows. -/
theorem c8_partition_witness :
    (((groupByVDID rowsW).map Prod.fst).Nodup
    ∧ (∀ v, (v ∈ (groupByVDID rowsW).map Prod.fst) ↔ ∃ r ∈ rowsW, oget r kVDID = some v)
    ∧ (∀ p ∈ groupByVDID rowsW, p.1 ≠ "")
    ∧ (∀ p ∈ groupByVDID rowsW, p.2 = rowsW.filter (fun r => oget r kVDID = some p.1))
    ∧ (∀ p ∈ groupByVDID rowsW, p.2.Sublist rowsW)
    ∧ ((groupByVDID rowsW).map (fun p => p.2.length)).sum = rowsW.length
    ∧ (∀ r ∈ rowsW, ∀ p ∈ groupByVDID rowsW, (r ∈ p.2 ↔ oget r kVDID = some p.1)))
    ∧ (groupByVDID rowsW).map (fun p => p.2.length) = [3, 1]
    ∧ (groupByVDID rowsW).length = 2 :=
  ⟨c8_partition rowsW (by decide), by decide, by decide⟩

/-- Claim C10: on an empty per-document table directory the combine step
raises `ValueError: No objects to concatenate`, so the stage fails instead
of producing an empty set of partitions. -/
theorem c10_empty_input_raises :
    split_by_vdid [] = Except.error CombineError.noObjectsToConcatenate
    ∧ (split_by_vdid []).isOk = false :=
  ⟨rfl, rfl⟩

end VD
